import Mathlib

/-!
Verification development for the escape-time fractal renderer in
`src/fractals/mandelbrot.js`.

JavaScript numbers are idealized as real numbers (`ℝ`).  The `Complex`
class imported from `../complex` is not part of the sources, so its
operations are modelled from the specification (§4.1).  The p5.js library
helpers `p5.map` and `p5.norm` are modelled from their documented linear
interpolation / normalization semantics (the `memoize` wrapper around
`p5.map` is semantically transparent since `p5.map` is pure).
-/

open scoped Classical

namespace Fractal

/-- Modelled from the spec: the `Complex` value class of `../complex`
(absent from the sources) — "two real components (re, im)". -/
structure Cplx where
  re : ℝ
  im : ℝ

/-- Modelled from the spec: `add(a,b)` of the missing `../complex` —
componentwise complex addition. -/
def Cplx.add (a b : Cplx) : Cplx := ⟨a.re + b.re, a.im + b.im⟩

/-- Modelled from the spec: `multiply(a,b)` of the missing `../complex` —
"standard complex multiplication: (ac−bd, ad+bc)". -/
def Cplx.multiply (a b : Cplx) : Cplx :=
  ⟨a.re * b.re - a.im * b.im, a.re * b.im + a.im * b.re⟩

/-- Modelled from the spec: `modulusSquared(a)` of the missing
`../complex`. -/
def Cplx.modulusSq (a : Cplx) : ℝ := a.re * a.re + a.im * a.im

/-- Modelled from the spec: `modulus()` of the missing `../complex` —
"if modulus is exposed, it is sqrt(modulusSquared)". -/
noncomputable def Cplx.modulus (a : Cplx) : ℝ := Real.sqrt a.modulusSq

/-- Canvas width (`const WIDTH = 512`). -/
def WIDTH : ℕ := 512

/-- Canvas height (`const HEIGHT = 512`). -/
def HEIGHT : ℕ := 512

/-- Models the p5.js library function `p5.map(v, a, b, c, d)`: linear
interpolation of `v` from `[a,b]` onto `[c,d]`.  `scale` in the source is
`memoize(p5.map)`, which computes the same values. -/
noncomputable def scale (v a b c d : ℝ) : ℝ := (v - a) / (b - a) * (d - c) + c

/-- Models the p5.js library function `p5.norm(v, a, b)`:
`p5.map(v, a, b, 0, 1)`, i.e. `(v - a) / (b - a)`. -/
noncomputable def p5norm (v a b : ℝ) : ℝ := (v - a) / (b - a)

/-- `createComplexPlane(zoomX, zoomY)`: a WIDTH × HEIGHT grid where
`field[i][j] = Complex(scale(i,0,WIDTH,zoomX,zoomY), scale(j,0,HEIGHT,zoomX,zoomY))`. -/
noncomputable def createComplexPlane (zoomX zoomY : ℝ) : List (List Cplx) :=
  (List.range WIDTH).map fun (i : ℕ) =>
    (List.range HEIGHT).map fun (j : ℕ) =>
      ⟨scale (i : ℝ) 0 (WIDTH : ℝ) zoomX zoomY,
       scale (j : ℝ) 0 (HEIGHT : ℝ) zoomX zoomY⟩

/-- The `hsb` component of the application state (`{ h, s, b }`). -/
structure HSBState where
  h : ℝ
  s : ℝ
  b : ℝ

/-- The application state object (`defaultState` lists its fields). -/
structure AppState where
  maxIters : ℤ
  escapeRadius : ℝ
  escapeColoring : Bool
  zoomX : ℝ
  zoomY : ℝ
  hsb : HSBState
  isJulia : Bool
  juliaConstant : ℝ
  reset : Bool

/-- `defaultState` (lines 19–29). -/
noncomputable def defaultState : AppState where
  maxIters := 400
  escapeRadius := 20
  escapeColoring := false
  zoomX := -2.5
  zoomY := 2.5
  hsb := ⟨0, 0, 0⟩
  isJulia := false
  juliaConstant := 0.285
  reset := false

/-- The `hsb` sub-object of an update patch; absent channels are `none`
(in JS, `undefined | 0` coerces to `0`). -/
structure HSBPatch where
  hue : Option ℤ
  saturation : Option ℤ
  brightness : Option ℤ

/-- An update patch handed to `p5.update` / `setState`.  Numeric fields
the source reads through `|0` are `Option ℤ` (absent = `none`); `extra`
stands for any field outside the recognized set, which `setState` never
reads. -/
structure UpdateObj where
  reset : Bool
  zoomX : Option ℤ
  zoomY : Option ℤ
  iterations : Option ℤ
  bound : Option ℤ
  isJulia : Bool
  juliaConstant : ℝ
  hsb : HSBPatch
  extra : ℤ

/-- JavaScript `ToInt32` on an integral number: wrap into
`[-2^31, 2^31)`. -/
def toInt32 (n : ℤ) : ℤ := (n + 2 ^ 31) % 2 ^ 32 - 2 ^ 31

/-- `x|0` applied to a possibly-absent integral field: `undefined|0 = 0`,
otherwise `ToInt32`. -/
def jsOr0 (o : Option ℤ) : ℤ := toInt32 (o.getD 0)

/-- The orchestrator's mutable globals: `appState` and `FIELD`. -/
structure Sys where
  appState : AppState
  FIELD : List (List Cplx)

/-- `getField(delta_x, delta_y, isJulia)` (lines 73–86): returns the new
field together with the `appState.zoomX` / `appState.zoomY` values after
the call (the rebuild branch assigns them, the other branch leaves them). -/
noncomputable def getField (s : Sys) (dx dy : ℝ) (isJulia : Bool) :
    List (List Cplx) × ℝ × ℝ :=
  if s.appState.zoomX ≠ dx ∨ s.appState.zoomY ≠ dy ∨ s.appState.isJulia ≠ isJulia then
    (createComplexPlane dx dy, dx, dy)
  else
    (s.FIELD, s.appState.zoomX, s.appState.zoomY)

/-- `setState(update)` (lines 88–107).  The reset branch replaces
`appState` by a copy of `defaultState` and leaves `FIELD` alone; the other
branch recomputes `FIELD` through `getField` and then overwrites the
listed `appState` fields from the patch. -/
noncomputable def setState (s : Sys) (update : UpdateObj) : Sys :=
  if update.reset then
    { s with appState := defaultState }
  else
    let zoomX := (jsOr0 update.zoomX : ℝ) * 0.01
    let zoomY := (jsOr0 update.zoomY : ℝ) * 0.01
    let fz := getField s zoomX zoomY update.isJulia
    { FIELD := fz.1
      appState :=
        { s.appState with
          zoomX := fz.2.1
          zoomY := fz.2.2
          maxIters := jsOr0 update.iterations
          escapeRadius := (jsOr0 update.bound : ℝ)
          isJulia := update.isJulia
          juliaConstant := update.juliaConstant
          hsb := ⟨(jsOr0 update.hsb.hue : ℝ), (jsOr0 update.hsb.saturation : ℝ),
                  (jsOr0 update.hsb.brightness : ℝ)⟩ } }

/-- One step of Mandelbrot's recurrence: `Z = Z.multiply(Z).add(C)`
(line 155). -/
def mandelStep (C Z : Cplx) : Cplx := (Z.multiply Z).add C

/-- The orbit of the recurrence: `orbit C Z₀ n` is `Z` after `n` loop
iterations starting from `Z₀`. -/
def orbit (C Z0 : Cplx) : ℕ → Cplx
  | 0 => Z0
  | n + 1 => mandelStep C (orbit C Z0 n)

/-- The `while (Z.modulus() < state.escapeRadius && itr < state.maxIters)`
loop (lines 153–157), with `fuel` the number of iterations still allowed
(`state.maxIters - itr`).  Returns the final `Z` and the number of
iterations performed. -/
noncomputable def mandelLoop (C : Cplx) (R : ℝ) : ℕ → Cplx → Cplx × ℕ
  | 0, Z => (Z, 0)
  | n + 1, Z =>
    if Z.modulus < R then
      let r := mandelLoop C R n (mandelStep C Z)
      (r.1, r.2 + 1)
    else
      (Z, 0)

/-- The constant `C` the evaluator uses for a sample (lines 142–150):
`K = Complex.of(juliaConstant, juliaConstant)` in the Julia variant,
otherwise `Complex.of(Z)`, a copy of the sample itself. -/
def pixelC (state : AppState) (Z : Cplx) : Cplx :=
  if state.isJulia then ⟨state.juliaConstant, state.juliaConstant⟩ else Z

/-- Result of the escape-time evaluator (spec §4.3's return triple). -/
structure EvalResult where
  finalZ : Cplx
  iterations : ℕ
  escaped : Bool

/-- The escape-time evaluator for one sample (lines 149–157): run the
while loop with `C = pixelC`; when `maxIters < 0` the loop body never
runs (`itr < maxIters` is false at once), matching `Int.toNat` fuel.
`escaped` is the loop's exit test: termination was due to the modulus
condition, i.e. `Z.modulus() < escapeRadius` failed. -/
noncomputable def evaluate (state : AppState) (Z : Cplx) : EvalResult :=
  ⟨(mandelLoop (pixelC state Z) state.escapeRadius state.maxIters.toNat Z).1,
   (mandelLoop (pixelC state Z) state.escapeRadius state.maxIters.toNat Z).2,
   decide ¬ (mandelLoop (pixelC state Z) state.escapeRadius
      state.maxIters.toNat Z).1.modulus < state.escapeRadius⟩

/-- The per-pixel color value (lines 159–164): `0.0` on the escape-coloring
interior branch, the renormalized iteration count otherwise.  `lg` stands
for `Math.log`. -/
noncomputable def pixelColorValue (lg : ℝ → ℝ) (state : AppState) (Z : Cplx) : ℝ :=
  if state.escapeColoring = true ∧ ((evaluate state Z).iterations : ℤ) = state.maxIters
  then 0
  else ((evaluate state Z).iterations : ℝ) -
    lg (lg (evaluate state Z).finalZ.modulus) / lg 2

/-- The `colorValues` list accumulated by `renderMandelbrotSet`
(lines 147–169): outer loop `x`, inner loop `y`, both bounded by
`FIELD.length`, pushing the color value of `FIELD[x][y]`. -/
noncomputable def renderColorValues (lg : ℝ → ℝ) (state : AppState)
    (field : List (List Cplx)) : List ℝ :=
  (List.range field.length).flatMap fun x =>
    (List.range field.length).map fun y =>
      pixelColorValue lg state ((field.getD x []).getD y ⟨0, 0⟩)

/-- Output of `getNormedHSB` (lines 213–217). -/
structure NormedHSB where
  HUE : ℝ
  SATURATION : ℝ
  BRIGHTNESS : ℝ

/-- `getNormedHSB(hsb, val)` (lines 198–218): each channel is
`base + val`, passed through when at most the channel maximum and
otherwise sent through `p5.norm(·, 0, max)`. -/
noncomputable def getNormedHSB (hsb : HSBState) (val : ℝ) : NormedHSB :=
  let h := hsb.h + val
  let s := hsb.s + val
  let b := hsb.b + val
  { HUE := if h ≤ 360 then h else p5norm h 0 360
    SATURATION := if s ≤ 100 then s else p5norm s 0 100
    BRIGHTNESS := if b ≤ 100 then b else p5norm b 0 100 }

/-- `colorFractal(hsbObj, colorValues, pixels)` (lines 175–196) acting on
the `p5.pixels` buffer (a flat array modelled as `ℕ → ℝ`): throws
`Cannot color fractal` on a length mismatch before writing any pixel,
otherwise writes the four channel slots for every entry. -/
noncomputable def colorFractal (hsbObj : HSBState) (colorValues : List ℝ)
    (pixels : List ℕ) (buf : ℕ → ℝ) : Except String (ℕ → ℝ) :=
  if colorValues.length ≠ pixels.length then
    .error "Cannot color fractal"
  else
    .ok <| (colorValues.zip pixels).foldl
      (fun acc cp =>
        let hsb := getNormedHSB hsbObj cp.1
        let pixel := cp.2
        fun k =>
          if k = pixel then hsb.HUE
          else if k = pixel + 1 then hsb.SATURATION
          else if k = pixel + 2 then hsb.BRIGHTNESS
          else if k = pixel + 3 then 250
          else acc k)
      buf

/-! ## Helper lemmas -/

/-- `Z.modulus() < R` is the same test as `modulusSquared(Z) < R²`
whenever the radius is positive. -/
theorem Cplx.modulus_lt_iff {Z : Cplx} {R : ℝ} (hR : 0 < R) :
    Z.modulus < R ↔ Z.modulusSq < R ^ 2 := by
  unfold Cplx.modulus
  exact Real.sqrt_lt' hR

/-- Shifting the start of an orbit by one step. -/
theorem orbit_shift (C Z : Cplx) (k : ℕ) :
    orbit C Z (k + 1) = orbit C (mandelStep C Z) k := by
  induction k with
  | zero => rfl
  | succ k ih => rw [orbit, ih, orbit]

/-- When the loop guard already fails, the while loop performs no
iteration, whatever fuel remains. -/
theorem mandelLoop_of_not_lt {C : Cplx} {R : ℝ} {Z : Cplx} (h : ¬ Z.modulus < R) :
    ∀ fuel, mandelLoop C R fuel Z = (Z, 0) := by
  intro fuel
  cases fuel with
  | zero => rfl
  | succ n => rw [mandelLoop, if_neg h]

/-- Full characterization of the while loop: the final `Z` is the orbit
after the counted number of iterations, the count never exceeds the fuel,
the guard held before every executed iteration, and on exit either the
guard failed or the fuel ran out. -/
theorem mandelLoop_spec (C : Cplx) (R : ℝ) (fuel : ℕ) (Z : Cplx) :
    (mandelLoop C R fuel Z).1 = orbit C Z (mandelLoop C R fuel Z).2 ∧
    (mandelLoop C R fuel Z).2 ≤ fuel ∧
    (∀ k < (mandelLoop C R fuel Z).2, (orbit C Z k).modulus < R) ∧
    (¬ (mandelLoop C R fuel Z).1.modulus < R ∨ (mandelLoop C R fuel Z).2 = fuel) := by
  induction fuel generalizing Z with
  | zero =>
    refine ⟨rfl, le_refl _, ?_, Or.inr rfl⟩
    intro k hk
    simp [mandelLoop] at hk
  | succ n ih =>
    by_cases h : Z.modulus < R
    · have hstep : mandelLoop C R (n + 1) Z =
        ((mandelLoop C R n (mandelStep C Z)).1, (mandelLoop C R n (mandelStep C Z)).2 + 1) := by
        rw [mandelLoop, if_pos h]
      obtain ⟨ih1, ih2, ih3, ih4⟩ := ih (mandelStep C Z)
      rw [hstep]
      refine ⟨?_, by omega, ?_, ?_⟩
      · simpa [orbit_shift] using ih1
      · intro k hk
        cases k with
        | zero => simpa [orbit] using h
        | succ k' =>
          rw [orbit_shift]
          exact ih3 k' (by omega)
      · rcases ih4 with h4 | h4
        · exact Or.inl h4
        · exact Or.inr (by omega)
    · rw [mandelLoop_of_not_lt h]
      refine ⟨rfl, by omega, ?_, Or.inl h⟩
      intro k hk
      simp at hk

/-- Index computation for the flattened double loop: entry `x*m + y` of
the concatenation of the inner rows is the `(x,y)` element. -/
theorem flatMap_range_getElem {α : Type} (n m x y : ℕ) (g : ℕ → ℕ → α)
    (hx : x < n) (hy : y < m) :
    ((List.range n).flatMap fun i => (List.range m).map (g i))[x * m + y]? =
      some (g x y) := by
  induction n generalizing g x with
  | zero => omega
  | succ n ih =>
    rw [List.range_succ_eq_map, List.flatMap_cons, List.flatMap_map]
    cases x with
    | zero =>
      have hy' : 0 * m + y < (List.map (g 0) (List.range m)).length := by
        simpa [List.length_map, List.length_range] using hy
      rw [List.getElem?_append, if_pos hy']
      simp [List.getElem?_map, List.getElem?_range hy]
    | succ x' =>
      have hlen : (List.map (g 0) (List.range m)).length = m := by
        simp [List.length_map, List.length_range]
      have hge : (List.map (g 0) (List.range m)).length ≤ (x' + 1) * m + y := by
        rw [hlen]; nlinarith
      rw [List.getElem?_append_right hge, hlen]
      have hidx : (x' + 1) * m + y - m = x' * m + y := by ring_nf; omega
      rw [hidx]
      apply ih
      omega

/-- The `(i,j)` sample of `createComplexPlane`. -/
theorem createComplexPlane_getD (zx zy : ℝ) (i j : ℕ)
    (hi : i < WIDTH) (hj : j < HEIGHT) :
    ((createComplexPlane zx zy).getD i []).getD j ⟨0, 0⟩ =
      ⟨scale i 0 (WIDTH : ℝ) zx zy, scale j 0 (HEIGHT : ℝ) zx zy⟩ := by
  have houter : (createComplexPlane zx zy).getD i [] =
      (List.range HEIGHT).map fun (j : ℕ) =>
        (⟨scale (i : ℝ) 0 (WIDTH : ℝ) zx zy,
          scale (j : ℝ) 0 (HEIGHT : ℝ) zx zy⟩ : Cplx) := by
    unfold createComplexPlane
    rw [List.getD_eq_getElem?_getD, List.getElem?_map, List.getElem?_range hi]
    simp
  rw [houter, List.getD_eq_getElem?_getD, List.getElem?_map, List.getElem?_range hj]
  simp

/-! ## Claims -/

/-- C1: with `maxIterations > 0` and `escapeRadius > 0`, the escape-time
evaluator iterates `Z ← Z·Z + C` from `Z₀` = sample (`C = Z₀` in the
Standard variant, `C` = the parameterized constant in the Julia variant),
counting one iteration per step, and stops exactly when
`modulusSquared(Z) ≥ escapeRadius²` or the count reaches `maxIterations`;
it returns the final `Z`, the count, and an escaped flag that is true iff
termination was due to the modulus condition. -/
theorem C1_evaluator_loop_spec (state : AppState) (Z0 : Cplx)
    (hM : 0 < state.maxIters) (hR : 0 < state.escapeRadius) :
    (state.isJulia = false → pixelC state Z0 = Z0) ∧
    (state.isJulia = true →
      pixelC state Z0 = ⟨state.juliaConstant, state.juliaConstant⟩) ∧
    (evaluate state Z0).finalZ =
      orbit (pixelC state Z0) Z0 (evaluate state Z0).iterations ∧
    ((evaluate state Z0).iterations : ℤ) ≤ state.maxIters ∧
    (∀ k < (evaluate state Z0).iterations,
      (orbit (pixelC state Z0) Z0 k).modulusSq < state.escapeRadius ^ 2) ∧
    (state.escapeRadius ^ 2 ≤ (evaluate state Z0).finalZ.modulusSq ∨
      ((evaluate state Z0).iterations : ℤ) = state.maxIters) ∧
    ((evaluate state Z0).escaped = true ↔
      state.escapeRadius ^ 2 ≤ (evaluate state Z0).finalZ.modulusSq) := by
  obtain ⟨h1, h2, h3, h4⟩ :=
    mandelLoop_spec (pixelC state Z0) state.escapeRadius state.maxIters.toNat Z0
  refine ⟨fun h => by simp [pixelC, h], fun h => by simp [pixelC, h], ?_, ?_, ?_, ?_, ?_⟩
  · simpa [evaluate] using h1
  · have := Int.toNat_of_nonneg (le_of_lt hM)
    simp only [evaluate]
    omega
  · intro k hk
    have := h3 k (by simpa [evaluate] using hk)
    exact ((Cplx.modulus_lt_iff hR).1 this)
  · rcases h4 with h | h
    · exact Or.inl (le_of_not_lt fun hc =>
        h ((Cplx.modulus_lt_iff hR).2 (by simpa [evaluate] using hc)))
    · refine Or.inr ?_
      have := Int.toNat_of_nonneg (le_of_lt hM)
      simp only [evaluate]
      omega
  · simp only [evaluate, decide_eq_true_iff]
    constructor
    · intro h
      exact le_of_not_lt fun hc => h ((Cplx.modulus_lt_iff hR).2 hc)
    · intro h hc
      exact absurd ((Cplx.modulus_lt_iff hR).1 hc) (not_lt.2 h)

/-- Witness for C1 at the default configuration and sample `10 + 10i`. -/
theorem C1_evaluator_loop_spec_witness :
    0 < defaultState.maxIters ∧ 0 < defaultState.escapeRadius ∧
    ((evaluate defaultState ⟨10, 10⟩).escaped = true ↔
      defaultState.escapeRadius ^ 2 ≤
        (evaluate defaultState ⟨10, 10⟩).finalZ.modulusSq) :=
  ⟨by norm_num [defaultState], by norm_num [defaultState],
    (C1_evaluator_loop_spec defaultState ⟨10, 10⟩
      (by norm_num [defaultState]) (by norm_num [defaultState])).2.2.2.2.2.2⟩

/-- C9: for the sample `10 + 10i` with `escapeRadius = 20`, the Standard
variant, and `maxIterations ≥ 1`, the evaluator reports escape after
exactly one iteration. -/
theorem C9_immediate_escape (st : AppState)
    (hR : st.escapeRadius = 20) (hStd : st.isJulia = false) (hM : 1 ≤ st.maxIters) :
    (evaluate st ⟨10, 10⟩).iterations = 1 ∧ (evaluate st ⟨10, 10⟩).escaped = true := by
  have hC : pixelC st ⟨10, 10⟩ = ⟨10, 10⟩ := by simp [pixelC, hStd]
  obtain ⟨n, hn⟩ : ∃ n, st.maxIters.toNat = n + 1 := ⟨st.maxIters.toNat - 1, by omega⟩
  have h1 : (⟨10, 10⟩ : Cplx).modulus < 20 := by
    rw [Cplx.modulus_lt_iff (by norm_num)]
    norm_num [Cplx.modulusSq]
  have hstep : mandelStep ⟨10, 10⟩ ⟨10, 10⟩ = ⟨10, 210⟩ := by
    norm_num [mandelStep, Cplx.multiply, Cplx.add]
  have h2 : ¬ (⟨10, 210⟩ : Cplx).modulus < 20 := by
    rw [Cplx.modulus_lt_iff (by norm_num)]
    norm_num [Cplx.modulusSq]
  have hloop : mandelLoop (⟨10, 10⟩ : Cplx) st.escapeRadius st.maxIters.toNat ⟨10, 10⟩ =
      (⟨10, 210⟩, 1) := by
    rw [hR, hn, mandelLoop, if_pos h1, hstep, mandelLoop_of_not_lt h2]
  refine ⟨?_, ?_⟩
  · simp [evaluate, hC, hloop]
  · simp only [evaluate, hC, hloop, decide_eq_true_iff]
    rw [hR]
    exact h2

/-- Witness for C9 at the default configuration. -/
theorem C9_immediate_escape_witness :
    defaultState.escapeRadius = 20 ∧ defaultState.isJulia = false ∧
    1 ≤ defaultState.maxIters ∧
    (evaluate defaultState ⟨10, 10⟩).iterations = 1 ∧
    (evaluate defaultState ⟨10, 10⟩).escaped = true := by
  refine ⟨by norm_num [defaultState], rfl, by norm_num [defaultState], ?_⟩
  exact C9_immediate_escape defaultState (by norm_num [defaultState]) rfl
    (by norm_num [defaultState])

/-- C8: in the sampled field, column `i = 0` has real component exactly
the window's minimum bound `zoomX` (the window is
`[zoomX, zoomY] × [zoomX, zoomY]`, so `xMin = yMin = zoomX`), and row
`j = 0` has imaginary component exactly that same minimum. -/
theorem C8_plane_edges (zx zy : ℝ) (i j : ℕ) (hi : i < WIDTH) (hj : j < HEIGHT) :
    (i = 0 → (((createComplexPlane zx zy).getD i []).getD j ⟨0, 0⟩).re = zx) ∧
    (j = 0 → (((createComplexPlane zx zy).getD i []).getD j ⟨0, 0⟩).im = zx) := by
  rw [createComplexPlane_getD zx zy i j hi hj]
  constructor
  · rintro rfl
    norm_num [scale]
  · rintro rfl
    norm_num [scale]

/-- Witness for C8 at the default window and pixel `(0, 0)`. -/
theorem C8_plane_edges_witness :
    0 < WIDTH ∧ 0 < HEIGHT ∧
    (((createComplexPlane (-2.5) 2.5).getD 0 []).getD 0 ⟨0, 0⟩).re = -2.5 :=
  ⟨by norm_num [WIDTH], by norm_num [HEIGHT],
    (C8_plane_edges (-2.5) 2.5 0 0 (by norm_num [WIDTH]) (by norm_num [HEIGHT])).1 rfl⟩

/-- C3: every output channel of `getNormedHSB` is the base channel plus
the color value, passed through unchanged when at most the channel
maximum (360 for hue, 100 for saturation and brightness, with no special
handling of negative sums) and normalized by dividing by the maximum when
above it; in particular base hue 350 with color value 20 wraps to a hue
strictly below 360, while base hue 100 with color value 20 gives exactly
120. -/
theorem C3_getNormedHSB_spec (hsb : HSBState) (val : ℝ) :
    ((hsb.h + val ≤ 360 → (getNormedHSB hsb val).HUE = hsb.h + val) ∧
     (360 < hsb.h + val →
       (getNormedHSB hsb val).HUE = (hsb.h + val) / 360 ∧
       0 < (getNormedHSB hsb val).HUE)) ∧
    ((hsb.s + val ≤ 100 → (getNormedHSB hsb val).SATURATION = hsb.s + val) ∧
     (100 < hsb.s + val →
       (getNormedHSB hsb val).SATURATION = (hsb.s + val) / 100)) ∧
    ((hsb.b + val ≤ 100 → (getNormedHSB hsb val).BRIGHTNESS = hsb.b + val) ∧
     (100 < hsb.b + val →
       (getNormedHSB hsb val).BRIGHTNESS = (hsb.b + val) / 100)) ∧
    (getNormedHSB ⟨350, hsb.s, hsb.b⟩ 20).HUE < 360 ∧
    (getNormedHSB ⟨100, hsb.s, hsb.b⟩ 20).HUE = 120 := by
  refine ⟨⟨fun h => ?_, fun h => ⟨?_, ?_⟩⟩, ⟨fun h => ?_, fun h => ?_⟩,
    ⟨fun h => ?_, fun h => ?_⟩, ?_, ?_⟩
  · simp [getNormedHSB, if_pos h]
  · simp [getNormedHSB, if_neg (not_le.2 h), p5norm]
  · have : (getNormedHSB hsb val).HUE = (hsb.h + val) / 360 := by
      simp [getNormedHSB, if_neg (not_le.2 h), p5norm]
    rw [this]
    positivity
  · simp [getNormedHSB, if_pos h]
  · simp [getNormedHSB, if_neg (not_le.2 h), p5norm]
  · simp [getNormedHSB, if_pos h]
  · simp [getNormedHSB, if_neg (not_le.2 h), p5norm]
  · norm_num [getNormedHSB, p5norm]
  · norm_num [getNormedHSB, p5norm]

/-- Witness for C3 at base `(100, 0, 0)` and color value 20. -/
theorem C3_getNormedHSB_spec_witness :
    (getNormedHSB ⟨100, 0, 0⟩ 20).HUE = 120 :=
  (C3_getNormedHSB_spec ⟨0, 0, 0⟩ 0).2.2.2.2

/-- C10: in the Julia (parameterized) variant, the constant handed to the
evaluator has both components equal to the single configured
`juliaConstant` number, so a constant with distinct real and imaginary
parts can never occur. -/
theorem C10_julia_constant_shape (state : AppState) (Z : Cplx)
    (h : state.isJulia = true) :
    (pixelC state Z).re = state.juliaConstant ∧
    (pixelC state Z).im = state.juliaConstant ∧
    (pixelC state Z).re = (pixelC state Z).im ∧
    (evaluate state Z).finalZ =
      (mandelLoop ⟨state.juliaConstant, state.juliaConstant⟩ state.escapeRadius
        state.maxIters.toNat Z).1 ∧
    (evaluate state Z).iterations =
      (mandelLoop ⟨state.juliaConstant, state.juliaConstant⟩ state.escapeRadius
        state.maxIters.toNat Z).2 := by
  refine ⟨by simp [pixelC, h], by simp [pixelC, h], by simp [pixelC, h], ?_, ?_⟩
  · simp [evaluate, pixelC, h]
  · simp [evaluate, pixelC, h]

/-- Witness for C10 with the Julia flag switched on in the default
state. -/
theorem C10_julia_constant_shape_witness :
    ({ defaultState with isJulia := true } : AppState).isJulia = true ∧
    (pixelC { defaultState with isJulia := true } ⟨0, 0⟩).re =
      ({ defaultState with isJulia := true } : AppState).juliaConstant :=
  ⟨rfl, (C10_julia_constant_shape { defaultState with isJulia := true } ⟨0, 0⟩ rfl).1⟩

/-- C2: every entry of the `colorValues` buffer is the per-pixel color
value of the corresponding field sample, and that value is `0.0` exactly
on the branch where `escapeColoring` is on and the point did not escape
(`itr === maxIters`), and otherwise the renormalized count
`itr − lg(lg(|Z|))/lg 2`. -/
theorem C2_color_rule (lg : ℝ → ℝ) (state : AppState) (field : List (List Cplx))
    (x y : ℕ) (hx : x < field.length) (hy : y < field.length) :
    (renderColorValues lg state field)[x * field.length + y]? =
      some (pixelColorValue lg state ((field.getD x []).getD y ⟨0, 0⟩)) ∧
    ∀ Z : Cplx,
      pixelColorValue lg state Z =
        if state.escapeColoring = true ∧
            ((evaluate state Z).iterations : ℤ) = state.maxIters
        then 0
        else ((evaluate state Z).iterations : ℝ) -
          lg (lg (evaluate state Z).finalZ.modulus) / lg 2 := by
  constructor
  · unfold renderColorValues
    exact flatMap_range_getElem field.length field.length x y
      (fun i j => pixelColorValue lg state ((field.getD i []).getD j ⟨0, 0⟩)) hx hy
  · intro Z
    rfl

/-- Witness for C2 on a one-sample field. -/
theorem C2_color_rule_witness :
    0 < ([[(⟨0, 0⟩ : Cplx)]] : List (List Cplx)).length ∧
    (renderColorValues Real.log defaultState
        [[⟨0, 0⟩]])[0 * ([[(⟨0, 0⟩ : Cplx)]] : List (List Cplx)).length + 0]? =
      some (pixelColorValue Real.log defaultState
        ((([[(⟨0, 0⟩ : Cplx)]] : List (List Cplx)).getD 0 []).getD 0 ⟨0, 0⟩)) :=
  ⟨by norm_num,
    (C2_color_rule Real.log defaultState [[⟨0, 0⟩]] 0 0 (by norm_num) (by norm_num)).1⟩

/-- The `appState.zoomX` / `appState.zoomY` values after `getField` are
always the incoming deltas (the rebuild branch assigns them, the reuse
branch already had them equal). -/
theorem getField_zoom (s : Sys) (dx dy : ℝ) (j : Bool) :
    (getField s dx dy j).2.1 = dx ∧ (getField s dx dy j).2.2 = dy := by
  unfold getField
  by_cases hc : s.appState.zoomX ≠ dx ∨ s.appState.zoomY ≠ dy ∨ s.appState.isJulia ≠ j
  · rw [if_pos hc]
    exact ⟨rfl, rfl⟩
  · rw [if_neg hc]
    push_neg at hc
    exact ⟨hc.1, hc.2.1⟩

/-- Concrete orchestrator state for witnesses: the default configuration
with an empty stored field. -/
noncomputable def sysA : Sys := ⟨defaultState, []⟩

/-- A patch requesting a reset. -/
noncomputable def patchReset : UpdateObj :=
  ⟨true, none, none, none, none, false, 0, ⟨none, none, none⟩, 0⟩

/-- A non-reset patch that omits `iterations` and keeps the default zoom
window and variant. -/
noncomputable def patchNoIters : UpdateObj :=
  { reset := false
    zoomX := some (-250)
    zoomY := some 250
    iterations := none
    bound := some 20
    isJulia := false
    juliaConstant := 0.285
    hsb := ⟨none, none, none⟩
    extra := 0 }

/-- A non-reset patch carrying the invalid bound `-5`. -/
noncomputable def patchBadBound : UpdateObj :=
  { reset := false
    zoomX := some (-250)
    zoomY := some 250
    iterations := some 10
    bound := some (-5)
    isJulia := false
    juliaConstant := 0.285
    hsb := ⟨none, none, none⟩
    extra := 0 }

/-- C4 counterexample: the patch does not mention `iterations`, yet the
stored `maxIters` changes from its prior value 400 to 0 — a non-reset
update does not leave unmentioned fields unchanged. -/
theorem C4_merge_counterexample :
    patchNoIters.iterations = none ∧
    sysA.appState.maxIters = 400 ∧
    (setState sysA patchNoIters).appState.maxIters = 0 := by
  refine ⟨rfl, by norm_num [sysA, defaultState], ?_⟩
  show (setState sysA patchNoIters).appState.maxIters = 0
  rfl

/-- C4 (amended): a non-reset update unconditionally overwrites every
recognized configuration field from the patch (absent numeric fields
coerce to 0 through `|0`), leaving only `escapeColoring` and the stored
`reset` flag untouched; fields outside the recognized set have no effect. -/
theorem C4_nonreset_overwrites (s : Sys) (p : UpdateObj) (h : p.reset = false) :
    ((setState s p).appState.maxIters = jsOr0 p.iterations ∧
     (setState s p).appState.escapeRadius = (jsOr0 p.bound : ℝ) ∧
     (setState s p).appState.isJulia = p.isJulia ∧
     (setState s p).appState.juliaConstant = p.juliaConstant ∧
     (setState s p).appState.hsb.h = (jsOr0 p.hsb.hue : ℝ) ∧
     (setState s p).appState.hsb.s = (jsOr0 p.hsb.saturation : ℝ) ∧
     (setState s p).appState.hsb.b = (jsOr0 p.hsb.brightness : ℝ) ∧
     (setState s p).appState.zoomX = (jsOr0 p.zoomX : ℝ) * 0.01 ∧
     (setState s p).appState.zoomY = (jsOr0 p.zoomY : ℝ) * 0.01 ∧
     (setState s p).appState.escapeColoring = s.appState.escapeColoring ∧
     (setState s p).appState.reset = s.appState.reset) ∧
    (∀ e : ℤ, setState s { p with extra := e } = setState s p) := by
  have hne : ¬ (p.reset = true) := by simp [h]
  constructor
  · unfold setState
    rw [if_neg hne]
    refine ⟨rfl, rfl, rfl, rfl, rfl, rfl, rfl, ?_, ?_, rfl, rfl⟩
    · exact (getField_zoom s _ _ p.isJulia).1
    · exact (getField_zoom s _ _ p.isJulia).2
  · intro e
    rfl

/-- Witness for C4's amended statement. -/
theorem C4_nonreset_overwrites_witness :
    patchNoIters.reset = false ∧
    (setState sysA patchNoIters).appState.escapeColoring =
      sysA.appState.escapeColoring :=
  ⟨rfl, (C4_nonreset_overwrites sysA patchNoIters rfl).1.2.2.2.2.2.2.2.2.2.1⟩

/-- C5: a non-reset update whose zoom bounds and variant agree with the
stored values (e.g. only the base color changed) keeps the stored field
object, and the field is rebuilt exactly when one of those generating
parameters differs. -/
theorem C5_field_rebuild_iff (s : Sys) (p : UpdateObj) (h : p.reset = false) :
    (((jsOr0 p.zoomX : ℝ) * 0.01 = s.appState.zoomX ∧
      (jsOr0 p.zoomY : ℝ) * 0.01 = s.appState.zoomY ∧
      p.isJulia = s.appState.isJulia) →
      (setState s p).FIELD = s.FIELD) ∧
    ((¬ ((jsOr0 p.zoomX : ℝ) * 0.01 = s.appState.zoomX ∧
         (jsOr0 p.zoomY : ℝ) * 0.01 = s.appState.zoomY ∧
         p.isJulia = s.appState.isJulia)) →
      (setState s p).FIELD =
        createComplexPlane ((jsOr0 p.zoomX : ℝ) * 0.01)
          ((jsOr0 p.zoomY : ℝ) * 0.01)) := by
  have hne : ¬ (p.reset = true) := by simp [h]
  constructor
  · rintro ⟨h1, h2, h3⟩
    unfold setState
    rw [if_neg hne]
    show (getField s _ _ p.isJulia).1 = s.FIELD
    unfold getField
    rw [if_neg (by push_neg; exact ⟨h1.symm, h2.symm, h3.symm⟩)]
  · intro hdiff
    unfold setState
    rw [if_neg hne]
    show (getField s _ _ p.isJulia).1 = _
    unfold getField
    have hc : s.appState.zoomX ≠ (jsOr0 p.zoomX : ℝ) * 0.01 ∨
        s.appState.zoomY ≠ (jsOr0 p.zoomY : ℝ) * 0.01 ∨
        s.appState.isJulia ≠ p.isJulia := by
      by_contra hcon
      push_neg at hcon
      exact hdiff ⟨hcon.1.symm, hcon.2.1.symm, hcon.2.2.symm⟩
    rw [if_pos hc]

/-- Witness for C5: a color-only patch over the default window leaves the
stored field untouched. -/
theorem C5_field_rebuild_iff_witness :
    patchNoIters.reset = false ∧ (setState sysA patchNoIters).FIELD = sysA.FIELD :=
  ⟨rfl, (C5_field_rebuild_iff sysA patchNoIters rfl).1
    ⟨by norm_num [patchNoIters, sysA, defaultState, jsOr0, toInt32],
     by norm_num [patchNoIters, sysA, defaultState, jsOr0, toInt32], rfl⟩⟩

/-- C6 counterexample: the invalid configuration `escapeRadius = -5`
(`≤ 0`) is accepted without any signaled error, and a subsequent color
mapping still produces a fully colored buffer. -/
theorem C6_no_validation_counterexample :
    (setState sysA patchBadBound).appState.escapeRadius = -5 ∧
    (colorFractal ⟨0, 0, 0⟩
        (renderColorValues Real.log (setState sysA patchBadBound).appState
          [[⟨0, 0⟩]])
        [0] (fun _ => 0)).isOk = true := by
  constructor
  · show ((jsOr0 patchBadBound.bound : ℤ) : ℝ) = -5
    norm_num [patchBadBound, jsOr0, toInt32]
  · have hlen : (renderColorValues Real.log (setState sysA patchBadBound).appState
        [[⟨0, 0⟩]]).length = ([0] : List ℕ).length := rfl
    unfold colorFractal
    rw [if_neg (not_ne_iff.2 hlen)]
    rfl

/-- C6 (amended): during color mapping, exactly a colorValues/pixels
length mismatch signals the explicit `Cannot color fractal` error, and in
that case no output buffer is produced; matching lengths always yield a
completed buffer.  Nonpositive `escapeRadius` / `maxIterations` are not
validated anywhere. -/
theorem C6_error_only_on_mismatch (hsbObj : HSBState) (cv : List ℝ)
    (px : List ℕ) (buf : ℕ → ℝ) :
    (colorFractal hsbObj cv px buf = .error "Cannot color fractal" ↔
      cv.length ≠ px.length) ∧
    (cv.length = px.length → (colorFractal hsbObj cv px buf).isOk = true) := by
  constructor
  · constructor
    · intro hE
      by_contra hcon
      unfold colorFractal at hE
      rw [if_neg (not_ne_iff.2 hcon)] at hE
      exact Except.noConfusion hE
    · intro hne
      unfold colorFractal
      rw [if_pos hne]
  · intro heq
    unfold colorFractal
    rw [if_neg (not_ne_iff.2 heq)]
    rfl

/-- Witness for C6's amended statement. -/
theorem C6_error_only_on_mismatch_witness :
    colorFractal ⟨0, 0, 0⟩ [] [0] (fun _ => 0) = .error "Cannot color fractal" :=
  (C6_error_only_on_mismatch ⟨0, 0, 0⟩ [] [0] (fun _ => 0)).1.mpr (by simp)

/-- C7: a reset patch restores the configuration to the documented
defaults (maxIterations 400, escapeRadius 20, escapeColoring off, window
`[-2.5, 2.5] × [-2.5, 2.5]`, Standard variant), whatever the prior
state. -/
theorem C7_reset_restores_defaults (s : Sys) (p : UpdateObj) (h : p.reset = true) :
    (setState s p).appState = defaultState ∧
    (setState s p).appState.maxIters = 400 ∧
    (setState s p).appState.escapeRadius = 20 ∧
    (setState s p).appState.escapeColoring = false ∧
    (setState s p).appState.zoomX = -2.5 ∧
    (setState s p).appState.zoomY = 2.5 ∧
    (setState s p).appState.isJulia = false := by
  have hs : setState s p = { s with appState := defaultState } := by
    unfold setState
    rw [if_pos h]
  rw [hs]
  norm_num [defaultState]

/-- Witness for C7. -/
theorem C7_reset_restores_defaults_witness :
    patchReset.reset = true ∧ (setState sysA patchReset).appState = defaultState :=
  ⟨rfl, (C7_reset_restores_defaults sysA patchReset rfl).1⟩

end Fractal
